import Mathlib

/-!
# Verification of the Smart School timetable scheduling engine

Shallow embedding of the scheduling engine of the Smart_School_Backend
repository: the schedule service (`checkConflicts`, `createSchedule`,
`updateSchedule`, `getSchedules`, `getSchedulesUiReady`, `getScheduleById`,
`toMinutes`, `groupByDay`, `DAY_ORDER`), the schedule controller
(`getStudentSchedulesForMe`, `getScheduleById` route, `DAYS`,
`emptyGroupedByDay`) and the Mongoose schedule model (field validators, the
`dayOfWeek` enumeration, the HH:MM format regex and the
end-after-start pre-validation hook).

JavaScript-level primitives (`Number(...)` coercion, truthiness, `"".split`,
`trim`, `toUpperCase`) are modelled on the fragment the engine exercises:
decimal integer literals with optional sign and surrounding whitespace for
`Number`, ASCII upper-casing, whitespace trimming.  Fractional, exponent,
hexadecimal and `Infinity` numeric literals are outside the modelled
fragment and no theorem below evaluates the model on such inputs.
-/

/-! ## JavaScript primitive fragment -/

/-- Whitespace recognised by the modelled `trim` / `Number` coercion
(space, tab, newline, carriage return). -/
def isJsSpace (c : Char) : Bool :=
  c.toNat = 32 || c.toNat = 9 || c.toNat = 10 || c.toNat = 13

/-- Decimal digit test on the character's code point. -/
def isDigitChar (c : Char) : Bool :=
  48 ≤ c.toNat && c.toNat ≤ 57

/-- Strip leading and trailing whitespace from a character list. -/
def trimChars (l : List Char) : List Char :=
  ((l.dropWhile isJsSpace).reverse.dropWhile isJsSpace).reverse

/-- `trim` on strings, via the character list. -/
def trimStr (s : String) : String :=
  ⟨trimChars s.data⟩

/-- ASCII `toUpperCase`. -/
def upperStr (s : String) : String :=
  ⟨s.data.map Char.toUpper⟩

/-- Value of a list of decimal digits. -/
def digitsVal (l : List Char) : Nat :=
  l.foldl (fun acc c => 10 * acc + (c.toNat - 48)) 0

/-- JavaScript `Number(s)` on the modelled fragment: trimmed empty string is
`0`, an optionally signed decimal integer is its value, anything else is
`NaN` (`none`). -/
def jsNumberChars (l : List Char) : Option Int :=
  match trimChars l with
  | [] => some 0
  | '-' :: rest =>
      if rest ≠ [] && rest.all isDigitChar then some (-(digitsVal rest : Int)) else none
  | '+' :: rest =>
      if rest ≠ [] && rest.all isDigitChar then some ((digitsVal rest : Int)) else none
  | t => if t.all isDigitChar then some ((digitsVal t : Int)) else none

/-- `Number(x)` where `x` may be `undefined` (absent array element):
`Number(undefined)` is `NaN`. -/
def jsNumberU : Option (List Char) → Option Int
  | none => none
  | some l => jsNumberChars l

/-- `"a:b:c".split(":")` on character lists: split on `':'`, keeping empty
pieces (so `"".split(":")` is `[""]` and `":x".split(":")` is `["", "x"]`). -/
def splitCols : List Char → List (List Char)
  | [] => [[]]
  | c :: rest =>
    let r := splitCols rest
    if c = ':' then [] :: r
    else
      match r with
      | h :: t => (c :: h) :: t
      | [] => [[c]]

/-- JavaScript `<` where either side may be `NaN`: any comparison with `NaN`
is false. -/
def jsLtO : Option Int → Option Int → Bool
  | some x, some y => decide (x < y)
  | _, _ => false

/-- JavaScript `>` with `NaN`-is-false semantics. -/
def jsGtO : Option Int → Option Int → Bool
  | some x, some y => decide (x > y)
  | _, _ => false

/-! ## JavaScript values carried by request payloads -/

/-- The JavaScript values a JSON request body can put in a schedule field:
strings, integers, booleans, `null`, and Mongo ObjectIds (for values the
service itself injects).  `oid` carries the 24-hex (or 12-byte) id string. -/
inductive JsVal where
  | str (s : String)
  | num (n : Int)
  | bool (b : Bool)
  | null
  | oid (s : String)
deriving DecidableEq, Repr

/-- JavaScript truthiness: `""`, `0`, `false` and `null` are falsy. -/
def jsTruthy : JsVal → Bool
  | .str s => s ≠ ""
  | .num n => n ≠ 0
  | .bool b => b
  | .null => false
  | .oid _ => true

/-- Mongoose cast of a value to a `String` schema path: strings pass,
numbers and booleans are stringified, `null` fails required validation
(modelled as cast failure). -/
def castString : JsVal → Option String
  | .str s => some s
  | .num n => some (toString n)
  | .bool b => some (if b then "true" else "false")
  | .oid s => some s
  | .null => none

/-- Well-formed Mongo ObjectId literal: a 12-character string or a
24-character hex string (`mongoose.Types.ObjectId.isValid`). -/
def isValidObjectIdStr (s : String) : Bool :=
  s.data.length = 12 ||
    (s.data.length = 24 &&
      s.data.all (fun c => isDigitChar c ||
        (97 ≤ c.toNat && c.toNat ≤ 102) || (65 ≤ c.toNat && c.toNat ≤ 70)))

/-- Mongoose cast of a value to an ObjectId schema path. -/
def castOid : JsVal → Option String
  | .oid s => some s
  | .str s => if isValidObjectIdStr s then some s else none
  | _ => none

/-- Mongo query equality of a candidate value against a stored `String`
field (query values are typed: a number or `null` never matches a stored
string). -/
def jsEqStr (v : JsVal) (t : String) : Bool :=
  match v with
  | .str s => s = t
  | _ => false

/-- Mongo query equality of a candidate value against a stored ObjectId
field.  A string query value is cast to an ObjectId (an invalid string
would raise a CastError in Mongoose; no theorem below exercises that
case). -/
def jsEqOid (v : JsVal) (t : String) : Bool :=
  match v with
  | .oid s => s = t
  | .str s => s = t
  | _ => false

/-- String rendering used by template literals (`Room ${room} ...`). -/
def jsDisplay : JsVal → String
  | .str s => s
  | .num n => toString n
  | .bool b => if b then "true" else "false"
  | .null => "null"
  | .oid s => s

/-! ## Time interval utility (schedule.service.js) -/

/-- Day enumeration of the schedule service (`DAY_ORDER`): the full
seven-day week, used by `groupByDay` and the robust sort in
`getSchedules`. -/
def DAY_ORDER : List String :=
  ["Monday", "Tuesday", "Wednesday", "Thursday", "Friday", "Saturday", "Sunday"]

/-- `toMinutes(timeStr)`: minutes since midnight of an `HH:MM` string;
`none` is the positive-infinity sentinel returned for a falsy argument or
when either component coerces to `NaN`. -/
def toMinutes (timeStr : String) : Option Int :=
  if timeStr = "" then none
  else
    let parts := splitCols timeStr.data
    match jsNumberU parts[0]?, jsNumberU parts[1]? with
    | some h, some m => some (h * 60 + m)
    | _, _ => none

/-- Inline time parsing done by `hasTimeOverlap` inside `checkConflicts`
(`split(":")`, `Number` on the first two pieces, `h * 60 + m`); unlike
`toMinutes` there is no explicit `NaN` guard, so `none` here stands for a
`NaN` total. -/
def parseMins (s : String) : Option Int :=
  let parts := splitCols s.data
  match jsNumberU parts[0]?, jsNumberU parts[1]? with
  | some h, some m => some (h * 60 + m)
  | _, _ => none

/-- Ordering used to model the ascending sort on `toMinutes` values, with
`none` (the infinity sentinel) greater than every finite value. -/
def minutesLE (a b : Option Int) : Bool :=
  match a, b with
  | some x, some y => decide (x ≤ y)
  | some _, none => true
  | none, some _ => false
  | none, none => true

/-! ## Mongoose schedule model (schedule.model.js) -/

/-- The `dayOfWeek` enumeration accepted by write-time validation in the
schedule model: six values, Monday through Saturday. -/
def dayOfWeekEnum : List String :=
  ["Monday", "Tuesday", "Wednesday", "Thursday", "Friday", "Saturday"]

/-- First alternative of the time-format regex,
`([0-1]?[0-9]|2[0-3])`: the hour component. -/
def hourOk (h : List Char) : Bool :=
  match h with
  | [c] => isDigitChar c
  | [c1, c2] =>
      ((c1 = '0' || c1 = '1') && isDigitChar c2) ||
        (c1 = '2' && (48 ≤ c2.toNat && c2.toNat ≤ 51))
  | _ => false

/-- Second alternative of the time-format regex, `[0-5][0-9]`: the minute
component. -/
def minuteOk (m : List Char) : Bool :=
  match m with
  | [c1, c2] => (48 ≤ c1.toNat && c1.toNat ≤ 53) && isDigitChar c2
  | _ => false

/-- The model's time validator, `/^([0-1]?[0-9]|2[0-3]):[0-5][0-9]$/`. -/
def isValidTimeFormat (s : String) : Bool :=
  match splitCols s.data with
  | [h, m] => hourOk h && minuteOk m
  | _ => false

/-- A persisted schedule document.  `classId`, `subjectId` and `teacherId`
are ObjectId references kept as their id strings; `createdAt` orders the
Mongo `sort({createdAt: -1})`.  The optional `periodNumber` field is not
read by any engine code and is omitted. -/
structure Entry where
  _id : String
  classId : String
  «section» : String
  subjectId : String
  teacherId : String
  room : String
  dayOfWeek : String
  startTime : String
  endTime : String
  academicYear : String
  isActive : Bool
  createdAt : Nat
deriving DecidableEq, Repr

/-- Save-time validation of a document (`validateBeforeSave`): required
string fields non-empty, `dayOfWeek` in the model enumeration, both times
matching the HH:MM regex, and the `pre("validate")` hook invalidating
`endTime` when `endMinutes <= startMinutes` (a `NaN` comparison is false,
so unparseable times pass the hook and are caught by the regex). -/
def validateEntry (e : Entry) : Bool :=
  e.«section» ≠ "" && e.room ≠ "" &&
  decide (e.dayOfWeek ∈ dayOfWeekEnum) &&
  isValidTimeFormat e.startTime && isValidTimeFormat e.endTime &&
  e.academicYear ≠ "" &&
  (if e.startTime ≠ "" && e.endTime ≠ "" then
    match parseMins e.startTime, parseMins e.endTime with
    | some s, some t => decide (s < t)
    | _, _ => true
   else true)

/-- Candidate slot data as handed to `checkConflicts` / `createSchedule`:
a JavaScript object whose fields carry arbitrary JSON values. -/
structure ScheduleData where
  classId : JsVal
  «section» : JsVal
  subjectId : JsVal
  teacherId : JsVal
  room : JsVal
  dayOfWeek : JsVal
  startTime : JsVal
  endTime : JsVal
  academicYear : JsVal
deriving DecidableEq, Repr

/-- A subject directory record, reduced to the fields the schedule service
reads (`assignedTeacher` holds a Teacher profile id, or nothing). -/
structure Subject where
  _id : String
  assignedTeacher : Option String
deriving DecidableEq, Repr

/-- One conflict record pushed by a `checkConflicts` scan. -/
structure Conflict where
  type : String
  message : String
  scheduleId : String
deriving DecidableEq, Repr

/-- Return shape of `checkConflicts`. -/
structure ConflictResult where
  hasConflict : Bool
  conflicts : List Conflict
deriving DecidableEq, Repr

/-- Structured service errors: `statusCode`-tagged errors thrown by the
service layer, plus Mongoose validation/cast failures (which carry no
`statusCode` and surface as 500 at the HTTP boundary). -/
inductive SvcError where
  | notFound (message : String)
  | badRequest (message : String)
  | conflict (message : String) (conflicts : List Conflict)
  | validation (message : String)
deriving DecidableEq, Repr

/-! ## Conflict checker (ScheduleService.checkConflicts) -/

/-- Time-overlap helper inside `checkConflicts`: parse the four times and
test `s1 < e2 && e1 > s2`.  Non-string inputs would throw on `.split` in
JavaScript; they are modelled as `NaN` totals (overlap false) and no
theorem below evaluates that case. -/
def hasTimeOverlap (start1 end1 start2 end2 : JsVal) : Bool :=
  let s1 := match start1 with | .str s => parseMins s | _ => none
  let e1 := match end1 with | .str s => parseMins s | _ => none
  let s2 := match start2 with | .str s => parseMins s | _ => none
  let e2 := match end2 with | .str s => parseMins s | _ => none
  jsLtO s1 e2 && jsGtO e1 s2

/-- The base query of every scan: same `dayOfWeek`, same `academicYear`,
active, and (when a truthy `excludeId` is given) a different `_id`. -/
def baseMatch (d : ScheduleData) (excludeId : Option String) (e : Entry) : Bool :=
  jsEqStr d.dayOfWeek e.dayOfWeek && jsEqStr d.academicYear e.academicYear &&
  e.isActive &&
  (match excludeId with
   | some i => if i = "" then true else decide (e._id ≠ i)
   | none => true)

/-- Conflict record pushed by the teacher scan. -/
def teacherConflictOf (e : Entry) : Conflict :=
  { type := "teacher"
    message := "Teacher is already scheduled in " ++ e.room ++ " from " ++
      e.startTime ++ " to " ++ e.endTime
    scheduleId := e._id }

/-- Conflict record pushed by the room scan. -/
def roomConflictOf (d : ScheduleData) (e : Entry) : Conflict :=
  { type := "room"
    message := "Room " ++ jsDisplay d.room ++ " is already booked from " ++
      e.startTime ++ " to " ++ e.endTime
    scheduleId := e._id }

/-- Conflict record pushed by the class scan. -/
def classConflictOf (e : Entry) : Conflict :=
  { type := "class"
    message := "Class already has a scheduled subject from " ++
      e.startTime ++ " to " ++ e.endTime
    scheduleId := e._id }

/-- `checkConflicts(scheduleData, excludeId)`: three independent scans over
the stored entries — same teacher, same room, same class and section — each
restricted by `baseMatch`, pushing one conflict record per overlapping
entry, teacher conflicts first, then room, then class. -/
def checkConflicts (db : List Entry) (d : ScheduleData) (excludeId : Option String) :
    ConflictResult :=
  let teacherSchedules := db.filter (fun e =>
    baseMatch d excludeId e && jsEqOid d.teacherId e.teacherId)
  let tConf := (teacherSchedules.filter (fun e =>
      hasTimeOverlap d.startTime d.endTime (.str e.startTime) (.str e.endTime))).map
    teacherConflictOf
  let roomSchedules := db.filter (fun e =>
    baseMatch d excludeId e && jsEqStr d.room e.room)
  let rConf := (roomSchedules.filter (fun e =>
      hasTimeOverlap d.startTime d.endTime (.str e.startTime) (.str e.endTime))).map
    (roomConflictOf d)
  let classSchedules := db.filter (fun e =>
    baseMatch d excludeId e && jsEqOid d.classId e.classId &&
      jsEqStr d.«section» e.«section»)
  let cConf := (classSchedules.filter (fun e =>
      hasTimeOverlap d.startTime d.endTime (.str e.startTime) (.str e.endTime))).map
    classConflictOf
  let conflicts := tConf ++ rConf ++ cConf
  { hasConflict := conflicts.length > 0, conflicts := conflicts }

/-! ## Schedule entry store (ScheduleService) -/

/-- Cast-and-set of a full candidate into a new document
(`new Schedule(scheduleData)`) with the schema setters applied: `section`
is trimmed and upper-cased, `room` is trimmed; `isActive` defaults to
`true`.  Any cast failure surfaces as a save-time validation failure. -/
def mkEntry (newId : String) (now : Nat) (d : ScheduleData) : Option Entry := do
  let ci ← castOid d.classId
  let sec ← castString d.«section»
  let si ← castOid d.subjectId
  let ti ← castOid d.teacherId
  let rm ← castString d.room
  let dw ← castString d.dayOfWeek
  let st ← castString d.startTime
  let et ← castString d.endTime
  let ay ← castString d.academicYear
  pure { _id := newId, classId := ci, «section» := upperStr (trimStr sec),
         subjectId := si, teacherId := ti, room := trimStr rm, dayOfWeek := dw,
         startTime := st, endTime := et, academicYear := ay,
         isActive := true, createdAt := now }

/-- `createSchedule(scheduleData)`: resolve a missing teacher from the
subject's `assignedTeacher`, run the conflict check, then persist (the
Mongoose save validating the new document) and return the saved entry.
`newId` is the ObjectId Mongo assigns and `now` the creation timestamp. -/
def createSchedule (subjects : List Subject) (db : List Entry) (d : ScheduleData)
    (newId : String) (now : Nat) : Except SvcError (List Entry × Entry) :=
  let step1 : Except SvcError ScheduleData :=
    if !jsTruthy d.teacherId && jsTruthy d.subjectId then
      match castOid d.subjectId with
      | none => .error (.validation "Cast to ObjectId failed")
      | some sid =>
        match subjects.find? (fun s => s._id = sid) with
        | none => .error (.notFound "Subject not found")
        | some subj =>
          match subj.assignedTeacher with
          | none => .error (.badRequest
              "Subject has no assigned teacher. Please assign a teacher to this subject first.")
          | some t => .ok { d with teacherId := .oid t }
    else .ok d
  match step1 with
  | .error err => .error err
  | .ok d' =>
    let res := checkConflicts db d' none
    if res.hasConflict then
      .error (.conflict "Schedule conflicts detected" res.conflicts)
    else
      match mkEntry newId now d' with
      | none => .error (.validation "Schedule validation failed")
      | some entry =>
        if validateEntry entry then .ok (db ++ [entry], entry)
        else .error (.validation "Schedule validation failed")

/-- A partial update payload: each field is either absent (`none`) or
carries the raw JSON value sent by the caller. -/
structure UpdatePatch where
  classId : Option JsVal
  «section» : Option JsVal
  subjectId : Option JsVal
  teacherId : Option JsVal
  room : Option JsVal
  dayOfWeek : Option JsVal
  startTime : Option JsVal
  endTime : Option JsVal
  academicYear : Option JsVal
deriving DecidableEq, Repr

/-- The all-absent patch. -/
def emptyPatch : UpdatePatch :=
  { classId := none, «section» := none, subjectId := none, teacherId := none,
    room := none, dayOfWeek := none, startTime := none, endTime := none,
    academicYear := none }

/-- `updateData.field || existingSchedule.field`: the patch value when
truthy, the existing value otherwise (also when the field is absent). -/
def jsOr (p : Option JsVal) (old : JsVal) : JsVal :=
  match p with
  | some v => if jsTruthy v then v else old
  | none => old

/-- The merged candidate `updateSchedule` hands to the conflict check
(source lines building `scheduleData` from `updateData || existingSchedule`
field by field). -/
def mergePatch (p : UpdatePatch) (e : Entry) : ScheduleData :=
  { classId := jsOr p.classId (.oid e.classId)
    «section» := jsOr p.«section» (.str e.«section»)
    subjectId := jsOr p.subjectId (.oid e.subjectId)
    teacherId := jsOr p.teacherId (.oid e.teacherId)
    room := jsOr p.room (.str e.room)
    dayOfWeek := jsOr p.dayOfWeek (.str e.dayOfWeek)
    startTime := jsOr p.startTime (.str e.startTime)
    endTime := jsOr p.endTime (.str e.endTime)
    academicYear := jsOr p.academicYear (.str e.academicYear) }

/-- `Object.assign(existingSchedule, updateData)`: write every present
patch field onto the document through the schema setters (cast, trim,
upper-case).  A cast failure (assigning `null` or an invalid id) surfaces
as a save-time validation failure, modelled by `none`. -/
def applyPatch (e : Entry) (p : UpdatePatch) : Option Entry := do
  let ci ← match p.classId with | none => some e.classId | some v => castOid v
  let sec ← match p.«section» with
            | none => some e.«section»
            | some v => (castString v).map (fun s => upperStr (trimStr s))
  let si ← match p.subjectId with | none => some e.subjectId | some v => castOid v
  let ti ← match p.teacherId with | none => some e.teacherId | some v => castOid v
  let rm ← match p.room with
           | none => some e.room
           | some v => (castString v).map trimStr
  let dw ← match p.dayOfWeek with | none => some e.dayOfWeek | some v => castString v
  let st ← match p.startTime with | none => some e.startTime | some v => castString v
  let et ← match p.endTime with | none => some e.endTime | some v => castString v
  let ay ← match p.academicYear with | none => some e.academicYear | some v => castString v
  pure { e with classId := ci, «section» := sec, subjectId := si, teacherId := ti,
                room := rm, dayOfWeek := dw, startTime := st, endTime := et,
                academicYear := ay }

/-- `updateSchedule(scheduleId, updateData)`: load the entry (a malformed
id raises a cast error), build the merged candidate, conflict-check it
with `excludeId = scheduleId`, then assign the raw patch over the document
and save (validating).  Returns the new store and the saved document. -/
def updateSchedule (db : List Entry) (scheduleId : String) (p : UpdatePatch) :
    Except SvcError (List Entry × Entry) :=
  if ¬ isValidObjectIdStr scheduleId then
    .error (.validation "Cast to ObjectId failed")
  else
    match db.find? (fun e => e._id = scheduleId) with
    | none => .error (.notFound "Schedule not found")
    | some existing =>
      let d := mergePatch p existing
      let res := checkConflicts db d (some scheduleId)
      if res.hasConflict then
        .error (.conflict "Schedule conflicts detected" res.conflicts)
      else
        match applyPatch existing p with
        | none => .error (.validation "Schedule validation failed")
        | some doc =>
          if validateEntry doc then
            .ok (db.map (fun e => if e._id = scheduleId then doc else e), doc)
          else .error (.validation "Schedule validation failed")

/-- `getScheduleById(scheduleId)` in the service: `findById` (casting the
id) and a 404 error when no entry matches. -/
def getScheduleById (db : List Entry) (scheduleId : String) : Except SvcError Entry :=
  if ¬ isValidObjectIdStr scheduleId then
    .error (.validation "Cast to ObjectId failed")
  else
    match db.find? (fun e => e._id = scheduleId) with
    | none => .error (.notFound "Schedule not found")
    | some e => .ok e

/-! ## Weekly view builder (schedule.service.js) -/

/-- Display DTO produced by `toScheduleDTO`.  The populated class, subject
and teacher sub-objects are read-side directory joins; the DTO here keeps
their raw reference ids, which is all the grouping and sorting logic
reads. -/
structure DTO where
  _id : String
  dayOfWeek : String
  startTime : String
  endTime : String
  room : String
  academicYear : String
  «section» : String
  isActive : Bool
  classId : String
  subjectId : String
  teacherId : String
deriving DecidableEq, Repr

/-- `toScheduleDTO(doc)`: shape a document for the UI. -/
def toScheduleDTO (e : Entry) : DTO :=
  { _id := e._id, dayOfWeek := e.dayOfWeek, startTime := e.startTime,
    endTime := e.endTime, room := e.room, academicYear := e.academicYear,
    «section» := e.«section», isActive := e.isActive, classId := e.classId,
    subjectId := e.subjectId, teacherId := e.teacherId }

/-- Ascending comparison on `toMinutes(startTime)` used to sort each day's
list. -/
def byStartLE (a b : DTO) : Bool :=
  minutesLE (toMinutes a.startTime) (toMinutes b.startTime)

/-- One step of the grouping loop: ensure the key exists
(`if (!grouped[day]) grouped[day] = []`), then push the item at the end of
that day's list.  The grouped object is modelled as an association list in
key insertion order. -/
def addToDay (acc : List (String × List DTO)) (day : String) (x : DTO) :
    List (String × List DTO) :=
  if acc.any (fun p => p.1 = day) then
    acc.map (fun p => if p.1 = day then (p.1, p.2 ++ [x]) else p)
  else acc ++ [(day, [x])]

/-- `groupByDay(items)`: initialize one empty bucket per `DAY_ORDER` day,
drop items with a falsy `dayOfWeek`, push every other item under its
(possibly new) key, then sort each bucket ascending by
`toMinutes(startTime)` (a stable sort, as in modern JavaScript engines). -/
def groupByDay (items : List DTO) : List (String × List DTO) :=
  let init := DAY_ORDER.map (fun d => (d, ([] : List DTO)))
  let grouped := items.foldl
    (fun acc item => if item.dayOfWeek = "" then acc else addToDay acc item.dayOfWeek item)
    init
  grouped.map (fun p => (p.1, p.2.mergeSort byStartLE))

/-- `DAY_ORDER.indexOf(day)`: position in the week enumeration, `-1` when
absent. -/
def dayIdx (d : String) : Int :=
  match DAY_ORDER.findIdx? (fun x => x = d) with
  | some i => (i : Int)
  | none => -1

/-- The robust day-then-time comparison of `getSchedules`. -/
def scheduleLE (a b : Entry) : Bool :=
  if dayIdx a.dayOfWeek = dayIdx b.dayOfWeek then
    minutesLE (toMinutes a.startTime) (toMinutes b.startTime)
  else decide (dayIdx a.dayOfWeek < dayIdx b.dayOfWeek)

/-- The Mongo `sort({createdAt: -1})` comparison. -/
def createdDescLE (a b : Entry) : Bool :=
  b.createdAt ≤ a.createdAt

/-- Optional query filters of `getSchedules`. -/
structure ScheduleFilters where
  classId : Option String
  «section» : Option String
  teacherId : Option String
  dayOfWeek : Option String
  academicYear : Option String
deriving DecidableEq, Repr

/-- The empty filter set. -/
def noFilters : ScheduleFilters :=
  { classId := none, «section» := none, teacherId := none, dayOfWeek := none,
    academicYear := none }

/-- `normalizeObjectId(value, fieldName)` on a truthy string: pass a valid
ObjectId through, otherwise throw a 400 error. -/
def normalizeObjectId (value : String) (fieldName : String) : Except SvcError String :=
  if isValidObjectIdStr value then .ok value
  else .error (.badRequest (fieldName ++ " must be a valid ObjectId"))

/-- Resolve an optional id filter: absent or falsy values are skipped,
truthy values are normalized (possibly raising the 400 error). -/
def resolveIdFilter (v : Option String) (fieldName : String) :
    Except SvcError (Option String) :=
  match v with
  | some c => if c = "" then .ok none else (normalizeObjectId c fieldName).map some
  | none => .ok none

/-- `getSchedules(filters)`: query active entries under the truthy filters
(`section` is trimmed and upper-cased), Mongo-sort by `createdAt`
descending, then re-sort robustly by day order and start time. -/
def getSchedules (db : List Entry) (f : ScheduleFilters) :
    Except SvcError (List Entry) := do
  let cid ← resolveIdFilter f.classId "classId"
  let tid ← resolveIdFilter f.teacherId "teacherId"
  let secF := match f.«section» with
              | some s => if s = "" then none else some (upperStr (trimStr s))
              | none => none
  let dayF := match f.dayOfWeek with
              | some d => if d = "" then none else some d
              | none => none
  let yearF := match f.academicYear with
               | some y => if y = "" then none else some y
               | none => none
  let q := fun (e : Entry) =>
    e.isActive
    && (match cid with | some c => decide (e.classId = c) | none => true)
    && (match secF with | some s => decide (e.«section» = s) | none => true)
    && (match tid with | some t => decide (e.teacherId = t) | none => true)
    && (match dayF with | some d => decide (e.dayOfWeek = d) | none => true)
    && (match yearF with | some y => decide (e.academicYear = y) | none => true)
  let found := (db.filter q).mergeSort createdDescLE
  pure (found.mergeSort scheduleLE)

/-- `getSchedulesUiReady(filters)`: the flat DTO list plus the day-grouped
view. -/
def getSchedulesUiReady (db : List Entry) (f : ScheduleFilters) :
    Except SvcError (List DTO × List (String × List DTO)) := do
  let schedules ← getSchedules db f
  let items := schedules.map toScheduleDTO
  pure (items, groupByDay items)

/-! ## Schedule controller (schedule.controller.js) -/

/-- Day enumeration of the controller (`DAYS`): the full seven-day week. -/
def DAYS : List String :=
  ["Monday", "Tuesday", "Wednesday", "Thursday", "Friday", "Saturday", "Sunday"]

/-- `emptyGroupedByDay()`: every configured day mapped to an empty list. -/
def emptyGroupedByDay : List (String × List DTO) :=
  DAYS.map (fun d => (d, ([] : List DTO)))

/-- HTTP status of a thrown service error
(`error.statusCode || 500`). -/
def statusOfError : SvcError → Nat
  | .notFound _ => 404
  | .badRequest _ => 400
  | .conflict _ _ => 409
  | .validation _ => 500

/-- Message of a service error. -/
def messageOfError : SvcError → String
  | .notFound m => m
  | .badRequest m => m
  | .conflict m _ => m
  | .validation m => m

/-- Response of the `GET /api/schedules/:id` route: a status/message pair
for failures, the found entry on success. -/
inductive ByIdResp where
  | err (status : Nat) (message : String)
  | ok (e : Entry)
deriving DecidableEq, Repr

/-- Controller `getScheduleById`: reject identifiers failing
`ObjectId.isValid` with a 404 "Invalid schedule ID format" response, then
delegate to the service and map thrown errors to their status codes. -/
def getScheduleByIdRoute (db : List Entry) (id : String) : ByIdResp :=
  if ¬ isValidObjectIdStr id then .err 404 "Invalid schedule ID format"
  else
    match getScheduleById db id with
    | .ok e => .ok e
    | .error err => .err (statusOfError err) (messageOfError err)

/-- A student profile, reduced to the fields the controller reads. -/
structure Student where
  _id : String
  name : Option String
  classId : Option String
  «section» : String
  academicYear : String
deriving DecidableEq, Repr

/-- Response of the student weekly-view route: a client error, or the
payload carrying the flat items and the grouped-by-day view. -/
inductive StudentResp where
  | clientError (status : Nat) (message : String)
  | payload (items : List DTO) (groupedByDay : List (String × List DTO))
deriving DecidableEq, Repr

/-- `getStudentSchedulesForMe`: 400 without a profile id, 404 without a
student profile; when the profile lacks `classId`, `section` or
`academicYear` (JavaScript-falsy), succeed with an empty flat list and the
full empty-day skeleton; otherwise serve the UI-ready view for the
student's class, section and year. -/
def getStudentSchedulesForMe (students : List Student) (profileId : Option String)
    (qDay : Option String) (db : List Entry) : StudentResp :=
  match profileId with
  | none => .clientError 400 "Student profileId missing on user"
  | some pid =>
    if pid = "" then .clientError 400 "Student profileId missing on user"
    else
      match students.find? (fun s => s._id = pid) with
      | none => .clientError 404 "Student profile not found"
      | some st =>
        match st.classId with
        | none => .payload [] emptyGroupedByDay
        | some cid =>
          if st.«section» = "" || st.academicYear = "" then
            .payload [] emptyGroupedByDay
          else
            match getSchedulesUiReady db
                { classId := some cid, «section» := some st.«section»,
                  teacherId := none, dayOfWeek := qDay,
                  academicYear := some st.academicYear } with
            | .ok (items, grouped) => .payload items grouped
            | .error err => .clientError (statusOfError err) (messageOfError err)

/-! ## Helper lemmas -/

lemma baseMatch_iff (d : ScheduleData) (excl : Option String) (e : Entry) :
    baseMatch d excl e = true ↔
      jsEqStr d.dayOfWeek e.dayOfWeek = true ∧
      jsEqStr d.academicYear e.academicYear = true ∧
      e.isActive = true ∧
      (∀ i, excl = some i → i ≠ "" → e._id ≠ i) := by
  unfold baseMatch
  cases excl with
  | none => simp [Bool.and_eq_true, and_assoc]
  | some i =>
    by_cases hi : i = "" <;>
      simp [hi, Bool.and_eq_true, and_assoc]

lemma hasTimeOverlap_iff (st et s2 e2 : String) (a b : Int)
    (ha : parseMins st = some a) (hb : parseMins et = some b) :
    hasTimeOverlap (.str st) (.str et) (.str s2) (.str e2) = true ↔
      ∃ u v : Int, parseMins s2 = some u ∧ parseMins e2 = some v ∧ a < v ∧ b > u := by
  unfold hasTimeOverlap
  simp only [ha, hb]
  cases hu : parseMins s2 <;> cases hv : parseMins e2 <;>
    simp [jsLtO, jsGtO, hu, hv, and_assoc]

lemma hasConflict_iff (db : List Entry) (d : ScheduleData) (excl : Option String) :
    (checkConflicts db d excl).hasConflict = true ↔
      (checkConflicts db d excl).conflicts ≠ [] := by
  unfold checkConflicts
  simp only [gt_iff_lt, List.length_pos, decide_eq_true_eq, ne_eq]

lemma andI {a b : Bool} (h1 : a = true) (h2 : b = true) : (a && b) = true := by
  simp [h1, h2]

lemma mem_scan_iff {p q : Entry → Bool} {f : Entry → Conflict} (db : List Entry) (c : Conflict) :
    c ∈ ((db.filter fun e => p e).filter fun e => q e).map f ↔
      ∃ e ∈ db, p e = true ∧ q e = true ∧ f e = c := by
  simp only [List.mem_map, List.mem_filter, and_assoc]

/-- C1: `checkConflicts(candidate, excludeId)` runs three independent scans
— same `teacherId`, same `room`, same `(classId, section)` — each
restricted to active entries with the same `dayOfWeek` and `academicYear`
(and a different id when a truthy `excludeId` is given), and its conflict
list contains a `{type, message, scheduleId}` record precisely for every
matching entry whose time interval overlaps the candidate's, across all
three dimensions; inactive entries and entries in a different academic
year are never reported. -/
theorem checkConflicts_three_scans_spec
    (db : List Entry) (d : ScheduleData) (excludeId : Option String)
    (st et : String) (a b : Int)
    (hst : d.startTime = JsVal.str st) (het : d.endTime = JsVal.str et)
    (ha : parseMins st = some a) (hb : parseMins et = some b) :
    ∀ c : Conflict, c ∈ (checkConflicts db d excludeId).conflicts ↔
      ∃ e ∈ db, e.isActive = true ∧
        jsEqStr d.dayOfWeek e.dayOfWeek = true ∧
        jsEqStr d.academicYear e.academicYear = true ∧
        (∀ i, excludeId = some i → i ≠ "" → e._id ≠ i) ∧
        (∃ u v : Int, parseMins e.startTime = some u ∧ parseMins e.endTime = some v ∧
          a < v ∧ b > u) ∧
        ((jsEqOid d.teacherId e.teacherId = true ∧ c = teacherConflictOf e) ∨
         (jsEqStr d.room e.room = true ∧ c = roomConflictOf d e) ∨
         (jsEqOid d.classId e.classId = true ∧ jsEqStr d.«section» e.«section» = true ∧
           c = classConflictOf e)) := by
  intro c
  unfold checkConflicts
  simp only [List.mem_append]
  rw [mem_scan_iff, mem_scan_iff, mem_scan_iff, hst, het]
  constructor
  · rintro ((⟨e, he, hpq, hov, rfl⟩ | ⟨e, he, hpq, hov, rfl⟩) | ⟨e, he, hpq, hov, rfl⟩)
    · rw [Bool.and_eq_true] at hpq
      obtain ⟨hday, hyear, hact, hexcl⟩ := (baseMatch_iff d excludeId e).mp hpq.1
      obtain ⟨u, v, hu, hv, h1, h2⟩ := (hasTimeOverlap_iff st et _ _ a b ha hb).mp hov
      exact ⟨e, he, hact, hday, hyear, hexcl, ⟨u, v, hu, hv, h1, h2⟩,
        Or.inl ⟨hpq.2, rfl⟩⟩
    · rw [Bool.and_eq_true] at hpq
      obtain ⟨hday, hyear, hact, hexcl⟩ := (baseMatch_iff d excludeId e).mp hpq.1
      obtain ⟨u, v, hu, hv, h1, h2⟩ := (hasTimeOverlap_iff st et _ _ a b ha hb).mp hov
      exact ⟨e, he, hact, hday, hyear, hexcl, ⟨u, v, hu, hv, h1, h2⟩,
        Or.inr (Or.inl ⟨hpq.2, rfl⟩)⟩
    · rw [Bool.and_eq_true, Bool.and_eq_true] at hpq
      obtain ⟨⟨hbase, hcl⟩, hsec⟩ := hpq
      obtain ⟨hday, hyear, hact, hexcl⟩ := (baseMatch_iff d excludeId e).mp hbase
      obtain ⟨u, v, hu, hv, h1, h2⟩ := (hasTimeOverlap_iff st et _ _ a b ha hb).mp hov
      exact ⟨e, he, hact, hday, hyear, hexcl, ⟨u, v, hu, hv, h1, h2⟩,
        Or.inr (Or.inr ⟨hcl, hsec, rfl⟩)⟩
  · rintro ⟨e, he, hact, hday, hyear, hexcl, ⟨u, v, hu, hv, h1, h2⟩,
      (⟨hdim, rfl⟩ | ⟨hdim, rfl⟩ | ⟨hcl, hsec, rfl⟩)⟩
    · exact Or.inl (Or.inl ⟨e, he,
        andI ((baseMatch_iff d excludeId e).mpr ⟨hday, hyear, hact, hexcl⟩) hdim,
        (hasTimeOverlap_iff st et _ _ a b ha hb).mpr ⟨u, v, hu, hv, h1, h2⟩, rfl⟩)
    · exact Or.inl (Or.inr ⟨e, he,
        andI ((baseMatch_iff d excludeId e).mpr ⟨hday, hyear, hact, hexcl⟩) hdim,
        (hasTimeOverlap_iff st et _ _ a b ha hb).mpr ⟨u, v, hu, hv, h1, h2⟩, rfl⟩)
    · exact Or.inr ⟨e, he,
        andI (andI ((baseMatch_iff d excludeId e).mpr ⟨hday, hyear, hact, hexcl⟩) hcl) hsec,
        (hasTimeOverlap_iff st et _ _ a b ha hb).mpr ⟨u, v, hu, hv, h1, h2⟩, rfl⟩

/-! ## Concrete fixtures -/

/-- A stored entry: Monday 09:00–10:00, room 101, year 2025-2026. -/
def fxEntry : Entry :=
  { _id := "aaaaaaaaaaaaaaaaaaaaaaaa", classId := "cccccccccccccccccccccccc",
    «section» := "A", subjectId := "dddddddddddddddddddddddd",
    teacherId := "bbbbbbbbbbbbbbbbbbbbbbbb", room := "101",
    dayOfWeek := "Monday", startTime := "09:00", endTime := "10:00",
    academicYear := "2025-2026", isActive := true, createdAt := 1 }

/-- A candidate slot overlapping `fxEntry` (Monday 09:30–10:30), same
teacher, room, class and section. -/
def fxData : ScheduleData :=
  { classId := .oid "cccccccccccccccccccccccc", «section» := .str "A",
    subjectId := .oid "dddddddddddddddddddddddd",
    teacherId := .oid "bbbbbbbbbbbbbbbbbbbbbbbb", room := .str "101",
    dayOfWeek := .str "Monday", startTime := .str "09:30",
    endTime := .str "10:30", academicYear := .str "2025-2026" }

theorem checkConflicts_three_scans_spec_witness :
    teacherConflictOf fxEntry ∈ (checkConflicts [fxEntry] fxData none).conflicts := by
  rw [checkConflicts_three_scans_spec [fxEntry] fxData none "09:30" "10:30" 570 630
    rfl rfl (by decide) (by decide) (teacherConflictOf fxEntry)]
  exact ⟨fxEntry, List.mem_singleton.mpr rfl, by decide, by decide, by decide,
    nofun, ⟨540, 600, by decide, by decide, by decide, by decide⟩,
    Or.inl ⟨by decide, rfl⟩⟩

/-- C2 (amended): when teacher resolution is not needed, `createSchedule`
raises the 409 conflict error carrying the full conflict list exactly when
the conflict check on the candidate returns a non-empty list (the empty
list meaning no conflict); when the list is empty and the candidate passes
model validation, the entry is persisted and the saved entry is returned
(an invalid candidate instead fails save-time validation after the
conflict check). -/
theorem createSchedule_conflict_gate_spec
    (subjects : List Subject) (db : List Entry) (d : ScheduleData)
    (newId : String) (now : Nat)
    (hteacher : jsTruthy d.teacherId = true) :
    (∀ L, createSchedule subjects db d newId now =
        .error (.conflict "Schedule conflicts detected" L) ↔
        ((checkConflicts db d none).conflicts = L ∧ L ≠ [])) ∧
    ((checkConflicts db d none).hasConflict = false ↔
        (checkConflicts db d none).conflicts = []) ∧
    (∀ e : Entry, (checkConflicts db d none).conflicts = [] →
      mkEntry newId now d = some e → validateEntry e = true →
      createSchedule subjects db d newId now = .ok (db ++ [e], e)) := by
  have hstep : createSchedule subjects db d newId now =
      (if (checkConflicts db d none).hasConflict then
        Except.error (.conflict "Schedule conflicts detected"
          (checkConflicts db d none).conflicts)
      else
        match mkEntry newId now d with
        | none => Except.error (.validation "Schedule validation failed")
        | some entry =>
          if validateEntry entry then Except.ok (db ++ [entry], entry)
          else Except.error (.validation "Schedule validation failed")) := by
    unfold createSchedule
    rw [hteacher]
    rfl
  refine ⟨fun L => ⟨fun hres => ?_, fun hLn => ?_⟩, ?_, fun e hempty hmk hval => ?_⟩
  · rw [hstep] at hres
    by_cases hcf : (checkConflicts db d none).hasConflict = true
    · rw [if_pos hcf] at hres
      simp only [Except.error.injEq, SvcError.conflict.injEq] at hres
      refine ⟨hres.2, fun hnil => ?_⟩
      rw [← hres.2] at hnil
      exact (hasConflict_iff db d none).mp hcf hnil
    · exfalso
      rw [if_neg hcf] at hres
      rcases hmk : mkEntry newId now d with _ | e <;> rw [hmk] at hres
      · simp at hres
      · by_cases hv : validateEntry e = true
        · simp [hv] at hres
        · simp [hv] at hres
  · have hcf : (checkConflicts db d none).hasConflict = true :=
      (hasConflict_iff db d none).mpr (hLn.1 ▸ hLn.2)
    rw [hstep, if_pos hcf, hLn.1]
  · constructor
    · intro h
      by_contra hne
      have h2 := (hasConflict_iff db d none).mpr hne
      rw [h] at h2
      exact Bool.false_ne_true h2
    · intro h
      cases hcf : (checkConflicts db d none).hasConflict
      · rfl
      · exact absurd ((hasConflict_iff db d none).mp hcf) (by simp [h])
  · have hcf : (checkConflicts db d none).hasConflict = false := by
      cases h2 : (checkConflicts db d none).hasConflict
      · rfl
      · exact absurd ((hasConflict_iff db d none).mp h2) (by simp [hempty])
    rw [hstep, hcf]
    simp only [Bool.false_eq_true, if_false, hmk, hval, if_true]

/-- A candidate whose times are regex-valid but reversed
(`endTime <= startTime`), so the conflict check passes on an empty store
while the Mongoose save is rejected by the pre-validation hook. -/
def fxReversed : ScheduleData :=
  { classId := .oid "cccccccccccccccccccccccc", «section» := .str "A",
    subjectId := .oid "dddddddddddddddddddddddd",
    teacherId := .oid "bbbbbbbbbbbbbbbbbbbbbbbb", room := .str "101",
    dayOfWeek := .str "Monday", startTime := .str "10:00",
    endTime := .str "09:00", academicYear := .str "2025-2026" }

/-- C2 counterexample: on an empty store the conflict check on `fxReversed`
returns the empty list, yet `createSchedule` does not persist the entry —
it fails save-time validation (`endTime` not after `startTime`), so
"empty conflict list implies the entry is persisted" is false as stated. -/
theorem createSchedule_empty_conflicts_not_persisted :
    (checkConflicts [] fxReversed none).conflicts = [] ∧
    createSchedule [] [] fxReversed "eeeeeeeeeeeeeeeeeeeeeeee" 0 =
      .error (.validation "Schedule validation failed") := by
  exact ⟨rfl, rfl⟩

/-- The entry persisted by `createSchedule` for `fxData` on an empty
store. -/
def fxCreated : Entry :=
  { _id := "eeeeeeeeeeeeeeeeeeeeeeee", classId := "cccccccccccccccccccccccc",
    «section» := "A", subjectId := "dddddddddddddddddddddddd",
    teacherId := "bbbbbbbbbbbbbbbbbbbbbbbb", room := "101",
    dayOfWeek := "Monday", startTime := "09:30", endTime := "10:30",
    academicYear := "2025-2026", isActive := true, createdAt := 5 }

theorem createSchedule_conflict_gate_spec_witness :
    createSchedule [] [] fxData "eeeeeeeeeeeeeeeeeeeeeeee" 5 =
      .ok ([fxCreated], fxCreated) :=
  (createSchedule_conflict_gate_spec [] [] fxData "eeeeeeeeeeeeeeeeeeeeeeee" 5
    (by decide)).2.2 fxCreated (by decide) (by decide) (by decide)

/-- C3: the overlap test has half-open interval semantics — with parseable
times, `[a, b)` and `[u, v)` conflict exactly when `a < v` and `b > u` —
and consequently a candidate that is back-to-back with every stored entry
(one's end exactly the other's start) yields no conflict at all, even when
day, year, room, teacher, class and section all coincide. -/
theorem hasTimeOverlap_halfOpen_spec :
    (∀ (st et s2 e2 : String) (a b u v : Int),
      parseMins st = some a → parseMins et = some b →
      parseMins s2 = some u → parseMins e2 = some v →
      (hasTimeOverlap (.str st) (.str et) (.str s2) (.str e2) = true ↔
        (a < v ∧ b > u))) ∧
    (∀ (db : List Entry) (d : ScheduleData) (excl : Option String)
        (st et : String) (a b : Int),
      d.startTime = JsVal.str st → d.endTime = JsVal.str et →
      parseMins st = some a → parseMins et = some b →
      (∀ e ∈ db, ∃ u v : Int, parseMins e.startTime = some u ∧
        parseMins e.endTime = some v ∧ (v = a ∨ u = b)) →
      checkConflicts db d excl = { hasConflict := false, conflicts := [] }) := by
  constructor
  · intro st et s2 e2 a b u v ha hb hu hv
    unfold hasTimeOverlap
    simp [ha, hb, hu, hv, jsLtO, jsGtO]
  · intro db d excl st et a b hst het ha hb hbb
    have hov : ∀ e ∈ db,
        hasTimeOverlap d.startTime d.endTime (.str e.startTime) (.str e.endTime) = false := by
      intro e he
      obtain ⟨u, v, hu, hv, hcase⟩ := hbb e he
      rw [hst, het]
      unfold hasTimeOverlap
      simp only [hu, hv, ha, hb, jsLtO, jsGtO]
      rcases hcase with rfl | rfl
      · simp
      · simp
    have hempty : ∀ p : Entry → Bool,
        ((db.filter fun e => p e).filter fun e =>
          hasTimeOverlap d.startTime d.endTime (.str e.startTime) (.str e.endTime)) = [] := by
      intro p
      rw [List.filter_eq_nil_iff]
      intro e he
      simp [hov e (List.mem_of_mem_filter he)]
    simp only [checkConflicts]
    rw [hempty, hempty, hempty]
    rfl

/-- Back-to-back candidate: Monday 10:00–11:00, same room, teacher, class
and section as `fxEntry` (which ends at exactly 10:00). -/
def fxBackToBack : ScheduleData :=
  { fxData with startTime := .str "10:00", endTime := .str "11:00" }

theorem hasTimeOverlap_halfOpen_spec_witness :
    hasTimeOverlap (.str "10:00") (.str "11:00") (.str "09:00") (.str "10:00") = false ∧
    checkConflicts [fxEntry] fxBackToBack none =
      { hasConflict := false, conflicts := [] } := by
  constructor
  · have h := hasTimeOverlap_halfOpen_spec.1 "10:00" "11:00" "09:00" "10:00"
      600 660 540 600 (by decide) (by decide) (by decide) (by decide)
    cases hov : hasTimeOverlap (.str "10:00") (.str "11:00") (.str "09:00") (.str "10:00")
    · rfl
    · exact absurd (h.mp hov).1 (by decide)
  · refine hasTimeOverlap_halfOpen_spec.2 [fxEntry] fxBackToBack none "10:00" "11:00"
      600 660 rfl rfl (by decide) (by decide) ?_
    intro e he
    rw [List.mem_singleton] at he
    subst he
    exact ⟨540, 600, by decide, by decide, Or.inl rfl⟩

/-- C4: the update path re-validates the merged candidate against all
*other* active entries only: with a truthy `excludeId` every reported
conflict references a different entry id, and for a stored entry with
`startTime < endTime` — whose time slot would overlap itself — an update
keeping its slot (here the empty patch) is not rejected for self-overlap:
`updateSchedule` passes `excludeId = id` and succeeds. -/
theorem updateSchedule_self_exclusion_spec :
    (∀ (db : List Entry) (d : ScheduleData) (i : String) (c : Conflict),
      c ∈ (checkConflicts db d (some i)).conflicts → i ≠ "" → c.scheduleId ≠ i) ∧
    (∀ (e : Entry) (a b : Int),
      parseMins e.startTime = some a → parseMins e.endTime = some b → a < b →
      isValidObjectIdStr e._id = true → validateEntry e = true →
      hasTimeOverlap (.str e.startTime) (.str e.endTime)
        (.str e.startTime) (.str e.endTime) = true ∧
      updateSchedule [e] e._id emptyPatch = .ok ([e], e)) := by
  constructor
  · intro db d i c hc hi
    unfold checkConflicts at hc
    simp only [List.mem_append] at hc
    rw [mem_scan_iff, mem_scan_iff, mem_scan_iff] at hc
    rcases hc with (⟨e, _, hpq, _, rfl⟩ | ⟨e, _, hpq, _, rfl⟩) | ⟨e, _, hpq, _, rfl⟩
    · rw [Bool.and_eq_true] at hpq
      exact ((baseMatch_iff d (some i) e).mp hpq.1).2.2.2 i rfl hi
    · rw [Bool.and_eq_true] at hpq
      exact ((baseMatch_iff d (some i) e).mp hpq.1).2.2.2 i rfl hi
    · rw [Bool.and_eq_true, Bool.and_eq_true] at hpq
      exact ((baseMatch_iff d (some i) e).mp hpq.1.1).2.2.2 i rfl hi
  · intro e a b ha hb hab hid hval
    have hne : e._id ≠ "" := by
      intro h
      rw [h] at hid
      exact absurd hid (by decide)
    refine ⟨?_, ?_⟩
    · unfold hasTimeOverlap
      simp only [ha, hb, jsLtO, jsGtO]
      simp [hab]
    · have hbm : baseMatch (mergePatch emptyPatch e) (some e._id) e = false := by
        simp [baseMatch, hne]
      have hck : checkConflicts [e] (mergePatch emptyPatch e) (some e._id) =
          { hasConflict := false, conflicts := [] } := by
        simp [checkConflicts, hbm]
      unfold updateSchedule
      rw [hid]
      simp only [not_true, if_false]
      have hfind : [e].find? (fun x => x._id = e._id) = some e := by
        simp [List.find?]
      rw [hfind]
      simp only [hck]
      have happ : applyPatch e emptyPatch = some e := rfl
      rw [happ]
      simp [hval]

theorem updateSchedule_self_exclusion_spec_witness :
    updateSchedule [fxEntry] fxEntry._id emptyPatch = .ok ([fxEntry], fxEntry) :=
  (updateSchedule_self_exclusion_spec.2 fxEntry 540 600 (by decide) (by decide)
    (by decide) (by decide) (by decide)).2

/-! ## Grouping lemmas -/

lemma minutesLE_total (a b : Option Int) : (minutesLE a b || minutesLE b a) = true := by
  rcases a with _ | x <;> rcases b with _ | y
  · rfl
  · rfl
  · rfl
  · simp only [minutesLE, Bool.or_eq_true, decide_eq_true_eq]
    omega

lemma minutesLE_trans (a b c : Option Int) (h1 : minutesLE a b = true)
    (h2 : minutesLE b c = true) : minutesLE a c = true := by
  rcases a with _ | x <;> rcases b with _ | y <;> rcases c with _ | z <;>
    simp_all [minutesLE]
  omega

lemma addToDay_keys (acc : List (String × List DTO)) (day : String) (x : DTO)
    (h : day ∈ acc.map Prod.fst) :
    (addToDay acc day x).map Prod.fst = acc.map Prod.fst := by
  unfold addToDay
  rw [if_pos ?hc]
  case hc =>
    rw [List.any_eq_true]
    obtain ⟨p, hp, hfst⟩ := List.mem_map.mp h
    exact ⟨p, hp, by simp [hfst]⟩
  rw [List.map_map]
  apply List.map_congr_left
  intro p _
  by_cases hpd : p.1 = day <;> simp [hpd]

lemma addToDay_of_any_true (acc : List (String × List DTO)) (day : String) (x : DTO)
    (h : acc.any (fun p => p.1 = day) = true) :
    addToDay acc day x = acc.map (fun p => if p.1 = day then (p.1, p.2 ++ [x]) else p) := by
  unfold addToDay
  rw [if_pos h]

lemma addToDay_flat_perm :
    ∀ (acc : List (String × List DTO)) (day : String) (x : DTO),
      day ∈ acc.map Prod.fst → (acc.map Prod.fst).Nodup →
      List.Perm ((addToDay acc day x).map Prod.snd).flatten
        (x :: (acc.map Prod.snd).flatten)
  | [], day, x, h, _ => absurd h (by simp)
  | p :: rest, day, x, h, hnd => by
    have hany : (p :: rest).any (fun q => q.1 = day) = true := by
      rw [List.any_eq_true]
      obtain ⟨q, hq, hfst⟩ := List.mem_map.mp h
      exact ⟨q, hq, by simp [hfst]⟩
    rw [addToDay_of_any_true _ _ _ hany]
    by_cases hpd : p.1 = day
    · have hrest : day ∉ rest.map Prod.fst := by
        rw [← hpd]
        exact (List.nodup_cons.mp (by simpa using hnd)).1
      have hmap : rest.map (fun q => if q.1 = day then (q.1, q.2 ++ [x]) else q) = rest := by
        have h1 : rest.map (fun q => if q.1 = day then (q.1, q.2 ++ [x]) else q) =
            rest.map id := by
          apply List.map_congr_left
          intro q hq
          have hqd : q.1 ≠ day := fun hc => hrest (List.mem_map.mpr ⟨q, hq, hc⟩)
          simp [hqd]
        rw [h1, List.map_id]
      simp only [List.map_cons, if_pos hpd, hmap, List.flatten_cons]
      rw [List.append_assoc]
      exact List.perm_middle
    · have hday : day ∈ rest.map Prod.fst := by
        rcases List.mem_map.mp h with ⟨q, hq, hfst⟩
        rcases List.mem_cons.mp hq with rfl | hq2
        · exact absurd hfst hpd
        · exact List.mem_map.mpr ⟨q, hq2, hfst⟩
      have hanyr : rest.any (fun q => q.1 = day) = true := by
        rw [List.any_eq_true]
        obtain ⟨q, hq, hfst⟩ := List.mem_map.mp hday
        exact ⟨q, hq, by simp [hfst]⟩
      have ih := addToDay_flat_perm rest day x hday
        (List.nodup_cons.mp (by simpa using hnd)).2
      rw [addToDay_of_any_true _ _ _ hanyr] at ih
      simp only [List.map_cons, if_neg hpd, List.flatten_cons]
      exact (List.Perm.append_left p.2 ih).trans List.perm_middle

lemma fold_group_spec :
    ∀ (items : List DTO) (acc : List (String × List DTO)),
      (acc.map Prod.fst).Nodup →
      (∀ x ∈ items, x.dayOfWeek ∈ acc.map Prod.fst ∧ x.dayOfWeek ≠ "") →
      (items.foldl
        (fun a it => if it.dayOfWeek = "" then a else addToDay a it.dayOfWeek it)
        acc).map Prod.fst = acc.map Prod.fst ∧
      List.Perm
        (((items.foldl
          (fun a it => if it.dayOfWeek = "" then a else addToDay a it.dayOfWeek it)
          acc).map Prod.snd).flatten)
        ((acc.map Prod.snd).flatten ++ items)
  | [], acc, _, _ => ⟨rfl, by simp⟩
  | it :: rest, acc, hnd, hall => by
    have h1 := hall it (List.mem_cons_self it rest)
    rw [List.foldl_cons, if_neg h1.2]
    have hkeys := addToDay_keys acc it.dayOfWeek it h1.1
    have hnd2 : ((addToDay acc it.dayOfWeek it).map Prod.fst).Nodup := by
      rw [hkeys]; exact hnd
    have hall2 : ∀ x ∈ rest,
        x.dayOfWeek ∈ (addToDay acc it.dayOfWeek it).map Prod.fst ∧ x.dayOfWeek ≠ "" := by
      rw [hkeys]
      exact fun x hx => hall x (List.mem_cons_of_mem it hx)
    obtain ⟨ihk, ihp⟩ := fold_group_spec rest (addToDay acc it.dayOfWeek it) hnd2 hall2
    refine ⟨by rw [ihk, hkeys], ?_⟩
    have hstep := addToDay_flat_perm acc it.dayOfWeek it h1.1 hnd
    exact ihp.trans ((List.Perm.append_right rest hstep).trans List.perm_middle.symm)

lemma byStartLE_total (a b : DTO) : (byStartLE a b || byStartLE b a) = true :=
  minutesLE_total _ _

lemma byStartLE_trans (a b c : DTO) (h1 : byStartLE a b = true)
    (h2 : byStartLE b c = true) : byStartLE a c = true :=
  minutesLE_trans _ _ _ h1 h2

/-- C5 (amended): for every input list of entries whose `dayOfWeek` lies in
the configured day enumeration, `groupByDay` yields exactly one key per
configured day (empty days mapped to empty lists), the union of the
per-day lists is a permutation of the input (no entries lost or
duplicated), and each day's list is sorted ascending by
`toMinutes(startTime)`. -/
theorem groupByDay_grouping_law (items : List DTO)
    (hdays : ∀ x ∈ items, x.dayOfWeek ∈ DAY_ORDER) :
    (groupByDay items).map Prod.fst = DAY_ORDER ∧
    List.Perm ((groupByDay items).map Prod.snd).flatten items ∧
    ∀ p ∈ groupByDay items, List.Pairwise (fun u v => byStartLE u v = true) p.2 := by
  have hinit_keys :
      ((DAY_ORDER.map (fun d => (d, ([] : List DTO)))).map Prod.fst) = DAY_ORDER := by
    decide
  have hnd : ((DAY_ORDER.map (fun d => (d, ([] : List DTO)))).map Prod.fst).Nodup := by
    rw [hinit_keys]
    decide
  have hall : ∀ x ∈ items,
      x.dayOfWeek ∈ (DAY_ORDER.map (fun d => (d, ([] : List DTO)))).map Prod.fst ∧
      x.dayOfWeek ≠ "" := by
    intro x hx
    refine ⟨by rw [hinit_keys]; exact hdays x hx, ?_⟩
    have hmem := hdays x hx
    intro h0
    rw [h0] at hmem
    revert hmem
    decide
  obtain ⟨hk, hp⟩ := fold_group_spec items _ hnd hall
  unfold groupByDay
  refine ⟨?_, ?_, ?_⟩
  · rw [List.map_map]
    have hcomp : (Prod.fst ∘ fun p : String × List DTO =>
        (p.1, p.2.mergeSort byStartLE)) = Prod.fst := rfl
    rw [hcomp, hk, hinit_keys]
  · have hsortperm : ∀ l : List (String × List DTO),
        List.Perm ((l.map (fun p => (p.1, p.2.mergeSort byStartLE))).map Prod.snd).flatten
          ((l.map Prod.snd).flatten) := by
      intro l
      induction l with
      | nil => simp
      | cons q rest ih =>
        simp only [List.map_cons, List.flatten_cons]
        exact List.Perm.append (List.mergeSort_perm q.2 byStartLE) ih
    refine (hsortperm _).trans (hp.trans ?_)
    have hinit_flat :
        ((DAY_ORDER.map (fun d => (d, ([] : List DTO)))).map Prod.snd).flatten = [] := by
      decide
    rw [hinit_flat]
    simp
  · intro p hp2
    obtain ⟨q, _, rfl⟩ := List.mem_map.mp hp2
    exact List.sorted_mergeSort
      (fun a b c h1 h2 => byStartLE_trans a b c h1 h2)
      (fun a b => byStartLE_total a b) q.2

/-- A DTO whose `dayOfWeek` is the empty string (JavaScript-falsy). -/
def fxLostDTO : DTO :=
  { _id := "ffffffffffffffffffffffff", dayOfWeek := "", startTime := "09:00",
    endTime := "10:00", room := "101", academicYear := "2025-2026",
    «section» := "A", isActive := true, classId := "cccccccccccccccccccccccc",
    subjectId := "dddddddddddddddddddddddd",
    teacherId := "bbbbbbbbbbbbbbbbbbbbbbbb" }

unseal List.merge List.mergeSort in
/-- C5 counterexample: an entry with a falsy `dayOfWeek` is silently
dropped by `groupByDay`, so the union of the grouped lists is empty and is
not a permutation of the input list — "no entries lost" fails for
arbitrary input lists. -/
theorem groupByDay_drops_falsy_day :
    ((groupByDay [fxLostDTO]).map Prod.snd).flatten = [] ∧
    ¬ List.Perm ((groupByDay [fxLostDTO]).map Prod.snd).flatten [fxLostDTO] := by
  decide

def fxDTO1 : DTO := toScheduleDTO fxEntry

theorem groupByDay_grouping_law_witness :
    (groupByDay [fxDTO1]).map Prod.fst = DAY_ORDER :=
  (groupByDay_grouping_law [fxDTO1] (by decide)).1

/-- C6 counterexample: the enumeration is not consistent across the
engine — "Sunday" is one of the seven day keys initialized by the grouping
utility (`DAY_ORDER`) yet is rejected by the model's write-time `dayOfWeek`
validation, so the two places do not use one and the same closed set. -/
theorem day_enumeration_mismatch :
    "Sunday" ∈ DAY_ORDER ∧ "Sunday" ∉ dayOfWeekEnum ∧
    ¬ (∀ d, d ∈ dayOfWeekEnum ↔ d ∈ DAY_ORDER) := by
  refine ⟨by decide, by decide, fun h => ?_⟩
  exact absurd ((h "Sunday").mpr (by decide)) (by decide)

/-- C6 (amended): write-time validation accepts a strict subset of the
grouping keys: every model-validated day is one of the seven keys the
grouping utility initializes, the controller skeleton (`DAYS`) uses exactly
the service enumeration (`DAY_ORDER`), but `DAY_ORDER` additionally
contains "Sunday", which validation rejects — the enumerations are six
versus seven days, not one consistent closed set. -/
theorem day_enumeration_subset_spec :
    (∀ d ∈ dayOfWeekEnum, d ∈ DAY_ORDER) ∧ DAYS = DAY_ORDER ∧
    "Sunday" ∈ DAY_ORDER ∧ "Sunday" ∉ dayOfWeekEnum := by
  decide

theorem day_enumeration_subset_spec_witness :
    "Monday" ∈ DAY_ORDER :=
  day_enumeration_subset_spec.1 "Monday" (by decide)

/-! ## Digit-string parsing lemmas -/

lemma dropWhile_eq_self_of_all (p : Char → Bool) :
    ∀ l : List Char, (∀ c ∈ l, p c = false) → l.dropWhile p = l
  | [], _ => rfl
  | c :: t, h => by
    rw [List.dropWhile_cons, h c (List.mem_cons_self c t)]
    simp

lemma isDigitChar_not_space (c : Char) (h : isDigitChar c = true) :
    isJsSpace c = false := by
  simp only [isDigitChar, Bool.and_eq_true, decide_eq_true_eq] at h
  simp only [isJsSpace, Bool.or_eq_false_iff, decide_eq_false_iff_not]
  omega

lemma trimChars_of_all_digits (l : List Char) (h : l.all isDigitChar = true) :
    trimChars l = l := by
  have hall : ∀ c ∈ l, isJsSpace c = false := fun c hc =>
    isDigitChar_not_space c (List.all_eq_true.mp h c hc)
  unfold trimChars
  rw [dropWhile_eq_self_of_all _ l hall,
    dropWhile_eq_self_of_all _ l.reverse (fun c hc => hall c (List.mem_reverse.mp hc)),
    List.reverse_reverse]

lemma jsNumberChars_digits (l : List Char) (hne : l ≠ [])
    (h : l.all isDigitChar = true) :
    jsNumberChars l = some ((digitsVal l : Nat) : Int) := by
  unfold jsNumberChars
  rw [trimChars_of_all_digits l h]
  split
  · exact absurd rfl hne
  · simp only [List.all_cons, Bool.and_eq_true] at h
    exact absurd h.1 (by decide)
  · simp only [List.all_cons, Bool.and_eq_true] at h
    exact absurd h.1 (by decide)
  · rw [if_pos h]

lemma digitsVal_one (c : Char) : digitsVal [c] = c.toNat - 48 := by
  simp [digitsVal]

lemma digitsVal_two (c1 c2 : Char) :
    digitsVal [c1, c2] = 10 * (c1.toNat - 48) + (c2.toNat - 48) := by
  simp [digitsVal]

set_option linter.unnecessarySeqFocus false in
lemma hourOk_parse (hl : List Char) (h : hourOk hl = true) :
    hl ≠ [] ∧ hl.all isDigitChar = true ∧ digitsVal hl < 24 := by
  match hl with
  | [] => simp [hourOk] at h
  | [c] =>
    simp only [hourOk] at h
    refine ⟨by simp, by simp [h], ?_⟩
    rw [digitsVal_one]
    simp only [isDigitChar, Bool.and_eq_true, decide_eq_true_eq] at h
    omega
  | [c1, c2] =>
    simp only [hourOk, Bool.or_eq_true, Bool.and_eq_true, decide_eq_true_eq] at h
    have hc1 : isDigitChar c1 = true ∧ isDigitChar c2 = true := by
      rcases h with ⟨h1, h2⟩ | ⟨h1, h2⟩
      · rcases h1 with h1 | h1 <;> simp_all [isDigitChar]
      · constructor <;> simp_all [isDigitChar] <;> omega
    refine ⟨by simp, by simp [hc1.1, hc1.2], ?_⟩
    rw [digitsVal_two]
    simp only [isDigitChar, Bool.and_eq_true, decide_eq_true_eq] at hc1
    rcases h with ⟨h1, _⟩ | ⟨h1, h2⟩
    · rcases h1 with h1 | h1 <;> (rw [h1]; simp; omega)
    · rw [h1]
      simp
      omega
  | c1 :: c2 :: c3 :: t => simp [hourOk] at h

lemma minuteOk_parse (ml : List Char) (h : minuteOk ml = true) :
    ml ≠ [] ∧ ml.all isDigitChar = true ∧ digitsVal ml < 60 := by
  match ml with
  | [] => simp [minuteOk] at h
  | [c] => simp [minuteOk] at h
  | [c1, c2] =>
    simp only [minuteOk, Bool.and_eq_true, decide_eq_true_eq] at h
    have hd1 : isDigitChar c1 = true := by
      simp only [isDigitChar, Bool.and_eq_true, decide_eq_true_eq]
      omega
    refine ⟨by simp, by simp [hd1, h.2], ?_⟩
    rw [digitsVal_two]
    simp only [isDigitChar, Bool.and_eq_true, decide_eq_true_eq] at h
    omega
  | c1 :: c2 :: c3 :: t => simp [minuteOk] at h

/-- C7 (amended): `toMinutes` is total on strings and, for every string
accepted by the model's HH:MM validator, returns `60 * hours + minutes`
computed from the string's own two colon-split components (`hl`, `ml`
below are exactly `splitCols s.data`, and `digitsVal` their decimal
values); it returns the positive-infinity sentinel for the empty string,
for every string without a colon, and whenever either split component
fails numeric coercion (non-numeric input) — but not for every malformed
string: a component that coerces (like the empty hour of ":5") yields a
finite value. -/
theorem toMinutes_spec :
    (∀ s : String, isValidTimeFormat s = true →
      ∃ hl ml : List Char, splitCols s.data = [hl, ml] ∧
        digitsVal hl < 24 ∧ digitsVal ml < 60 ∧
        toMinutes s = some ((digitsVal hl : Int) * 60 + (digitsVal ml : Int))) ∧
    toMinutes "" = none ∧
    (∀ s : String, (splitCols s.data).length = 1 → toMinutes s = none) ∧
    (∀ (s : String) (hp mp : List Char) (rest : List (List Char)),
      splitCols s.data = hp :: mp :: rest →
      (jsNumberChars hp = none ∨ jsNumberChars mp = none) →
      toMinutes s = none) := by
  refine ⟨?_, rfl, ?_, ?_⟩
  · intro s hv
    unfold isValidTimeFormat at hv
    split at hv
    case h_2 => exact absurd hv (by simp)
    case h_1 hl ml heq =>
      rw [Bool.and_eq_true] at hv
      obtain ⟨hne, hdig, hlt⟩ := hourOk_parse hl hv.1
      obtain ⟨mne, mdig, mlt⟩ := minuteOk_parse ml hv.2
      refine ⟨hl, ml, heq, hlt, mlt, ?_⟩
      have hs : s ≠ "" := by
        intro h0
        rw [h0] at heq
        simp [splitCols] at heq
      unfold toMinutes
      rw [if_neg hs, heq]
      simp [jsNumberU, jsNumberChars_digits hl hne hdig,
        jsNumberChars_digits ml mne mdig]
  · intro s hlen
    unfold toMinutes
    split
    · rfl
    · obtain ⟨hp, heq⟩ := List.length_eq_one.mp hlen
      rw [heq]
      cases hjs : jsNumberChars hp <;> simp [jsNumberU, hjs]
  · intro s hp mp rest heq hnone
    unfold toMinutes
    split
    · rfl
    · rw [heq]
      rcases hnone with h0 | h0
      · simp [jsNumberU, h0]
      · cases hjs : jsNumberChars hp <;> simp [jsNumberU, hjs, h0]

/-- C7 counterexample: `":5"` is not a well-formed HH:MM string (the model
validator rejects it), yet `toMinutes` returns the finite value 5 — the
empty hour component coerces to 0, not `NaN` — so "any unparseable input
yields the infinity sentinel" fails. -/
theorem toMinutes_malformed_finite :
    isValidTimeFormat ":5" = false ∧ toMinutes ":5" = some 5 := by
  decide

theorem toMinutes_spec_witness :
    toMinutes "abc" = none ∧
    (∃ hl ml : List Char, splitCols "09:30".data = [hl, ml] ∧
      digitsVal hl < 24 ∧ digitsVal ml < 60 ∧
      toMinutes "09:30" = some ((digitsVal hl : Int) * 60 + (digitsVal ml : Int))) ∧
    splitCols "09:30".data = [['0', '9'], ['3', '0']] ∧
    digitsVal ['0', '9'] = 9 ∧ digitsVal ['3', '0'] = 30 ∧
    toMinutes "09:30" = some 570 :=
  ⟨toMinutes_spec.2.2.1 "abc" (by decide),
   toMinutes_spec.1 "09:30" (by decide),
   by decide, by decide, by decide, by decide⟩

/-- C8: when a student requests their weekly view and the profile lacks a
`classId`, a `section` or an `academicYear` (JavaScript-falsy), the
operation succeeds with an empty flat items list and a grouped-by-day
skeleton containing every configured day mapped to an empty list. -/
theorem studentSchedules_graceful_empty_spec
    (students : List Student) (pid : String) (st : Student)
    (qDay : Option String) (db : List Entry)
    (hpid : pid ≠ "")
    (hfind : students.find? (fun s => s._id = pid) = some st)
    (hmissing : st.classId = none ∨ st.«section» = "" ∨ st.academicYear = "") :
    getStudentSchedulesForMe students (some pid) qDay db =
      .payload [] emptyGroupedByDay ∧
    emptyGroupedByDay.map Prod.fst = DAYS ∧
    ∀ d ∈ DAYS, (d, ([] : List DTO)) ∈ emptyGroupedByDay := by
  refine ⟨?_, by decide, by decide⟩
  simp only [getStudentSchedulesForMe, if_neg hpid, hfind]
  rcases hmissing with hc | hs | hy
  · rw [hc]
  · cases hcl : st.classId with
    | none => rfl
    | some cid => simp [hs]
  · cases hcl : st.classId with
    | none => rfl
    | some cid => simp [hy]

/-- A student profile with no class assignment yet. -/
def fxStudent : Student :=
  { _id := "999999999999999999999999", name := some "S", classId := none,
    «section» := "", academicYear := "" }

theorem studentSchedules_graceful_empty_spec_witness :
    getStudentSchedulesForMe [fxStudent] (some "999999999999999999999999") none [] =
      .payload [] emptyGroupedByDay :=
  (studentSchedules_graceful_empty_spec [fxStudent] "999999999999999999999999"
    fxStudent none [] (by decide) (by decide) (Or.inl rfl)).1

/-- C9 counterexample: a malformed identifier is answered by the
`getScheduleById` route with HTTP status 404 (message "Invalid schedule ID
format"), not a 400-class validation failure, so "malformed ids surface a
400-class failure distinct from the 404" is false as stated. -/
theorem getScheduleById_malformed_is_404 :
    getScheduleByIdRoute [] "abc" = .err 404 "Invalid schedule ID format" ∧
    (404 : Nat) ≠ 400 := by
  decide

/-- C9 (amended): the route answers 404 for malformed identifiers and 404
for well-formed identifiers matching no entry; the two cases are
distinguished only by the response message ("Invalid schedule ID format"
versus "Schedule not found"), not by the status code. -/
theorem getScheduleById_route_spec (db : List Entry) (id : String) :
    (isValidObjectIdStr id = false →
      getScheduleByIdRoute db id = .err 404 "Invalid schedule ID format") ∧
    (isValidObjectIdStr id = true → db.find? (fun e => e._id = id) = none →
      getScheduleByIdRoute db id = .err 404 "Schedule not found") ∧
    ("Invalid schedule ID format" : String) ≠ "Schedule not found" := by
  refine ⟨fun hv => ?_, fun hv hf => ?_, by decide⟩
  · simp [getScheduleByIdRoute, hv]
  · simp [getScheduleByIdRoute, getScheduleById, hv, hf,
      statusOfError, messageOfError]

theorem getScheduleById_route_spec_witness :
    getScheduleByIdRoute [] "abc" = .err 404 "Invalid schedule ID format" ∧
    getScheduleByIdRoute [] "aaaaaaaaaaaaaaaaaaaaaaaa" =
      .err 404 "Schedule not found" :=
  ⟨(getScheduleById_route_spec [] "abc").1 (by decide),
   (getScheduleById_route_spec [] "aaaaaaaaaaaaaaaaaaaaaaaa").2.1
     (by decide) (by decide)⟩

/-- Patch sending `section: ""` (a falsy string). -/
def fxPatchEmptySection : UpdatePatch :=
  { emptyPatch with «section» := some (.str "") }

/-- C10 counterexample: with the patch `{section: ""}` the merged candidate
keeps the existing section for the conflict check, and `Object.assign`
writes the raw `""` onto the document — but the subsequent save fails
required-field validation, so the update is rejected with a validation
error and no state diverging from the checked candidate is persisted;
the claim's own example does not produce a persisted divergence. -/
theorem updateSchedule_empty_section_rejected :
    (mergePatch fxPatchEmptySection fxEntry).«section» = .str "A" ∧
    updateSchedule [fxEntry] fxEntry._id fxPatchEmptySection =
      .error (.validation "Schedule validation failed") := by
  exact ⟨rfl, rfl⟩

/-- Patch sending `room: 0` (a falsy number). -/
def fxPatchRoomZero : UpdatePatch :=
  { emptyPatch with room := some (.num 0) }

/-- C10 (amended): any falsy patch field is replaced by the existing
record's value in the candidate passed to the conflict check, while
`Object.assign` writes the raw patch value onto the persisted document;
when the raw value survives cast and validation — e.g. `room: 0`, cast to
the string "0" — the persisted state differs from the conflict-checked
candidate; for `section: ""` the save instead fails required-field
validation after the conflict check. -/
theorem updateSchedule_falsy_patch_divergence
    (e : Entry)
    (hsid : isValidObjectIdStr e._id = true)
    (hval : validateEntry e = true)
    (hroom : e.room ≠ "0") :
    (mergePatch fxPatchRoomZero e).room = .str e.room ∧
    updateSchedule [e] e._id fxPatchRoomZero =
      .ok ([{ e with room := "0" }], { e with room := "0" }) ∧
    jsEqStr (mergePatch fxPatchRoomZero e).room ({ e with room := "0" } : Entry).room
      = false := by
  have hne : e._id ≠ "" := by
    intro h0
    rw [h0] at hsid
    exact absurd hsid (by decide)
  have hval2 : validateEntry { e with room := "0" } = true := by
    simp only [validateEntry, Bool.and_eq_true] at hval ⊢
    refine ⟨⟨⟨⟨⟨⟨hval.1.1.1.1.1.1, ?_⟩, hval.1.1.1.1.2⟩,
      hval.1.1.1.2⟩, hval.1.1.2⟩, hval.1.2⟩, hval.2⟩
    simp
  refine ⟨rfl, ?_, by simp [mergePatch, fxPatchRoomZero, emptyPatch, jsOr,
    jsTruthy, jsEqStr, hroom]⟩
  have hbm : baseMatch (mergePatch fxPatchRoomZero e) (some e._id) e = false := by
    simp [baseMatch, hne]
  have hck : checkConflicts [e] (mergePatch fxPatchRoomZero e) (some e._id) =
      { hasConflict := false, conflicts := [] } := by
    simp [checkConflicts, hbm]
  unfold updateSchedule
  rw [hsid]
  simp only [not_true, if_false]
  have hfind : [e].find? (fun x => x._id = e._id) = some e := by
    simp [List.find?]
  rw [hfind]
  simp only [hck]
  have happ : applyPatch e fxPatchRoomZero = some { e with room := "0" } := rfl
  rw [happ]
  simp [hval2]

theorem updateSchedule_falsy_patch_divergence_witness :
    updateSchedule [fxEntry] fxEntry._id fxPatchRoomZero =
      .ok ([{ fxEntry with room := "0" }], { fxEntry with room := "0" }) :=
  (updateSchedule_falsy_patch_divergence fxEntry (by decide) (by decide)
    (by decide)).2.1
